import Mathlib

/-!
Shallow embedding of the XPL order-book reconciliation pipeline
(`src/unnamed/part_003` = the cron/event processing step,
`src/steps/process-xpl-data.step.ts` = the retrying variant,
`src/steps/fetch-xpl.step.ts` appendix = `utils/database.ts`, the
persistence gateway over Postgres).

Numeric columns (`DECIMAL(20,8)`) are modelled by `Rat`; a raw JSON
numeric field of a fetched order is `Option Rat`, where `none` stands
for a value that is missing or does not parse as a number
(`parseFloat` yields `NaN` there, and `NaN || 0` is `0`).
Timestamps (`CURRENT_TIMESTAMP`, `Date.now()`) are `Nat`.
-/

namespace CrawlXpl

/-- A raw order record as fetched from the upstream order-book endpoint.
Fields are exactly the ones the processing step reads: `id` (the stable
external identity), `side`, the two username candidates, and the three
raw numeric fields `price`, `size`, `funds`.  `Option` models an absent
JSON field; for the numeric fields `none` also models a non-numeric
string (see the module comment). -/
structure FetchedOrder where
  id : String
  side : String
  userShortName : Option String
  username : Option String
  price : Option Rat
  size : Option Rat
  funds : Option Rat
deriving DecidableEq, Repr

/-- A persisted row of the `order_books` table (`utils/database.ts`,
`createOrderBooksTable`).  The surrogate `SERIAL` id is omitted: no
pipeline code reads it. -/
structure Row where
  uid : String
  side : String
  username : String
  price : Rat
  quantity : Rat
  funds : Rat
  status : String
  created_at : Nat
  updated_at : Nat
deriving DecidableEq, Repr

/-- The database contents, ordered by `created_at ASC` as
`getAllOrderBooks` returns them. -/
abbrev DB := List Row

/-- The argument record of `insertOrderBook`
(`Omit<OrderBook, "id" | "created_at" | "updated_at">`). -/
structure NewOrder where
  uid : String
  side : String
  username : String
  price : Rat
  quantity : Rat
  funds : Rat
  status : String
deriving DecidableEq, Repr

/-- `updateOrderStatus` (`utils/database.ts`):
`UPDATE order_books SET status = $1, updated_at = CURRENT_TIMESTAMP WHERE uid = $2`. -/
def updateOrderStatus (now : Nat) (uid status : String) (db : DB) : DB :=
  db.map fun r =>
    if r.uid == uid then { r with status := status, updated_at := now } else r

/-- `insertOrderBook` (`utils/database.ts`):
`INSERT ... ON CONFLICT (uid) DO UPDATE SET side = EXCLUDED.side, ...,
status = EXCLUDED.status, updated_at = CURRENT_TIMESTAMP`.
On conflict the row keeps its `created_at`; a fresh row gets
`created_at = updated_at = now` (`CURRENT_TIMESTAMP` defaults). -/
def insertOrderBook (now : Nat) (o : NewOrder) (db : DB) : DB :=
  if db.any fun r => r.uid == o.uid then
    db.map fun r =>
      if r.uid == o.uid then
        { r with side := o.side, username := o.username, price := o.price,
                 quantity := o.quantity, funds := o.funds, status := o.status,
                 updated_at := now }
      else r
  else
    db ++ [{ uid := o.uid, side := o.side, username := o.username,
             price := o.price, quantity := o.quantity, funds := o.funds,
             status := o.status, created_at := now, updated_at := now }]

/-- The set of external ids present in the fresh fetch:
`new Set([...allOrders.buyOrders.map(o => o.id), ...allOrders.sellOrders.map(o => o.id)])`
(membership in the JS `Set` coincides with membership in this list). -/
def newOrderIds (buy sell : List FetchedOrder) : List String :=
  buy.map (fun o => o.id) ++ sell.map (fun o => o.id)

/-- The close loop of `processXplData`: iterate over the snapshot
returned by `getAllOrderBooks`, and for every row whose `uid` is not
among the fresh ids, run `updateOrderStatus(uid, "close")` against the
(evolving) database and bump `closedCount`. -/
def closeLoop (now : Nat) (ids : List String) :
    List Row → DB → Nat → DB × Nat
  | [], db, closed => (db, closed)
  | r :: rest, db, closed =>
    if ids.contains r.uid then closeLoop now ids rest db closed
    else closeLoop now ids rest (updateOrderStatus now r.uid "close" db) (closed + 1)

/-- The closure phase: the snapshot is the database itself
(read-before-write, `const existingOrders = await getAllOrderBooks()`). -/
def closeMissing (now : Nat) (ids : List String) (db : DB) : DB × Nat :=
  closeLoop now ids db db 0

/-- The effect of one `updateOrderStatus(uid, "close")` on one row. -/
def applyClose (now : Nat) (uid : String) (x : Row) : Row :=
  if x.uid == uid then { x with status := "close", updated_at := now } else x

/-- The cumulative effect of the close loop over a snapshot on a single row. -/
def closeResidual (now : Nat) (ids : List String) (snap : List Row) (x : Row) : Row :=
  snap.foldl (fun y s => if ids.contains s.uid then y else applyClose now s.uid y) x

/-- The numeric coercion `parseFloat(v) || 0` applied to a raw field:
`none` (missing or non-numeric, where `parseFloat` gives `NaN`) becomes
`0`; a parsed number is kept (`0 || 0` is `0` as well). -/
def jsNumOr0 : Option Rat → Rat
  | none => 0
  | some q => q

/-- The JS expression `a || b || dflt` on the two username candidates:
an absent field and the empty string are falsy. -/
def firstTruthy (a b : Option String) (dflt : String) : String :=
  match a with
  | some s => if s == "" then (match b with
      | some t => if t == "" then dflt else t
      | none => dflt)
    else s
  | none => match b with
    | some t => if t == "" then dflt else t
    | none => dflt

/-- The record built for `insertOrderBook` in the save loop:
`{ uid: order.id, side: order.side,
   username: order.userShortName || order.username || "Unknown",
   price: parseFloat(order.price) || 0, quantity: parseFloat(order.size) || 0,
   funds: parseFloat(order.funds) || 0, status: "open" }`. -/
def toNewOrder (o : FetchedOrder) : NewOrder :=
  { uid := o.id
    side := o.side
    username := firstTruthy o.userShortName o.username "Unknown"
    price := jsNumOr0 o.price
    quantity := jsNumOr0 o.size
    funds := jsNumOr0 o.funds
    status := "open" }

/-- The effect of the `ON CONFLICT (uid) DO UPDATE` arm of
`insertOrderBook` on one row. -/
def upsertRow (now : Nat) (o : NewOrder) (r : Row) : Row :=
  if r.uid == o.uid then
    { r with side := o.side, username := o.username, price := o.price,
             quantity := o.quantity, funds := o.funds, status := o.status,
             updated_at := now }
  else r

/-- The save loop of `processXplData`: each fresh order is passed to
`insertOrderBook` and `savedCount` is incremented (the per-record
`try/catch` only matters when the store itself fails, which the pure
model does not represent). -/
def upsertLoop (now : Nat) : List FetchedOrder → DB → Nat → DB × Nat
  | [], db, saved => (db, saved)
  | o :: rest, db, saved =>
    upsertLoop now rest (insertOrderBook now (toNewOrder o) db) (saved + 1)

/-- `allOrdersToSave = [...allOrders.buyOrders, ...allOrders.sellOrders]`
followed by the save loop. -/
def upsertAll (now : Nat) (orders : List FetchedOrder) (db : DB) : DB × Nat :=
  upsertLoop now orders db 0

/-- The reconciliation core of `processXplData`: read the persisted
set, close every row absent from the fresh ids, then upsert every
fresh order.  Returns (final database, closedCount, savedCount). -/
def processReconcile (now : Nat) (buy sell : List FetchedOrder) (db : DB) :
    DB × Nat × Nat :=
  let c := closeMissing now (newOrderIds buy sell) db
  let u := upsertAll now (buy ++ sell) c.1
  (u.1, c.2, u.2)

/-- The success summary built at the end of `processXplData`
(`src/unnamed/part_003`, the variant that reports `rateLimited`). -/
structure RunSummary where
  success : Bool
  message : String
  totalBuyOrders : Nat
  totalSellOrders : Nat
  totalEntries : Nat
  savedToDatabase : Nat
  closedOrders : Nat
  source : Option String
  rateLimited : Bool
deriving DecidableEq, Repr

/-- `hasAnyData = buyOrders.length > 0 || sellOrders.length > 0` and the
result object literal of `processXplData`. -/
def mkSummary (buy sell : List FetchedOrder) (saved closed : Nat)
    (src : Option String) : RunSummary :=
  let hasAnyData : Bool := decide (buy.length > 0) || decide (sell.length > 0)
  { success := true
    message := if hasAnyData then "XPL data processed and saved to database successfully"
               else "XPL data processing completed - no new data due to rate limiting"
    totalBuyOrders := buy.length
    totalSellOrders := sell.length
    totalEntries := buy.length + sell.length
    savedToDatabase := saved
    closedOrders := closed
    source := src
    rateLimited := !hasAnyData }

/-- The `errorResult` object literal of the `catch` blocks. -/
structure ErrorResult where
  success : Bool
  error : String
  details : String
  source : Option String
deriving DecidableEq, Repr

/-- What the handler hands back to the caller: either the success
summary or the error record.  Both are plain structured values; no
exception crosses this boundary. -/
inductive RunResult where
  | ok (s : RunSummary)
  | err (e : ErrorResult)
deriving DecidableEq, Repr

def mkErrorResult (details : String) (src : Option String) : ErrorResult :=
  { success := false
    error := "Failed to process XPL data from KuCoin"
    details := details
    source := src }

/-- The environment a run of `processXplData` observes.  The side loop
and the collection timeout contain their own failures (each side
contributes whatever list it collected, possibly empty), so the
collection phase is summarised by the two collected lists.  The two
`await`s that can throw past those inner handlers — `createOrderBooksTable`
and `getAllOrderBooks` — are modelled as `Except` values. -/
structure Env where
  createTable : Except String Unit
  buyOrders : List FetchedOrder
  sellOrders : List FetchedOrder
  listAll : Except String DB
  now : Nat
  source : Option String

/-- The body of `processXplData` up to the outer `catch`: any error from
table creation or the persisted-set read propagates as `Except.error`. -/
def processBody (env : Env) : Except String RunSummary :=
  match env.createTable with
  | .error m => .error m
  | .ok _ =>
    match env.listAll with
    | .error m => .error m
    | .ok db =>
      let res := processReconcile env.now env.buyOrders env.sellOrders db
      .ok (mkSummary env.buyOrders env.sellOrders res.2.2 res.2.1 env.source)

/-- `processXplData` with its outer `catch`: an error becomes the
structured `errorResult` instead of propagating. -/
def processXplData (env : Env) : RunResult :=
  match processBody env with
  | .ok s => .ok s
  | .error m => .err (mkErrorResult m env.source)

/-- The event handler.  Its own outermost `try/catch` mirrors the one
inside `processXplData`; since `processXplData` is total it never
fires, and the handler returns its result unchanged. -/
def handler (env : Env) : RunResult :=
  processXplData env

/-- The JSON envelope of one order-book page, restricted to the fields
the pipeline reads (`data`/`items`/`orders`, `totalPage`, `totalCount`).
`none` models an absent field. -/
structure PageResult where
  data : Option (List FetchedOrder)
  items : Option (List FetchedOrder)
  orders : Option (List FetchedOrder)
  totalPage : Option Nat
  totalCount : Option Nat
deriving DecidableEq, Repr

/-- The sentinel `fetchPage` returns on HTTP 429
(`{ data: [], items: [], orders: [], totalPage: 0, totalCount: 0 }`). -/
def rateLimitSentinel : PageResult :=
  { data := some [], items := some [], orders := some [],
    totalPage := some 0, totalCount := some 0 }

/-- One upstream interaction: the resolved HTTP status together with
the parsed JSON body, or a rejection (network failure; a 2xx whose
body fails to parse is also modelled as `netError`). -/
inductive HttpEvent where
  | resp (status : Nat) (body : PageResult)
  | netError
deriving DecidableEq, Repr

/-- `CACHE_TTL = 3000` (ms). -/
def CACHE_TTL : Nat := 3000

/-- The module-level mutable state of the cached `fetchPage`
(`src/unnamed/part_003`): the `requestCache` map from request key to
`(result, timestamp)` (newest entry first, as `Map.set` replaces), and
the number of upstream requests issued so far.  The `pendingRequests`
in-flight map only matters for overlapping concurrent calls; across
the sequential calls modelled here it is empty at every call boundary
because the request promise deletes its own entry in `finally`. -/
structure FetchState where
  cache : List (String × (PageResult × Nat))
  requestCount : Nat
deriving DecidableEq, Repr

/-- The cache probe: an entry for the key whose age
`Date.now() - cached.timestamp` is below `CACHE_TTL`. -/
def lookupFresh (cache : List (String × (PageResult × Nat))) (key : String)
    (nowT : Nat) : Option PageResult :=
  match cache.lookup key with
  | some (r, ts) => if nowT - ts < CACHE_TTL then some r else none
  | none => none

/-- The cached/deduplicating `fetchPage` of `src/unnamed/part_003`:
fresh cache hit → return it with no I/O; otherwise issue the request
(`upstream` is indexed by the running request count).  HTTP 429 returns
the sentinel and is NOT cached; a non-2xx status or a rejection throws
(`none`); a 2xx JSON result is cached under the key with the current
timestamp and returned. -/
def fetchPage (upstream : Nat → HttpEvent) (nowT : Nat) (key : String)
    (st : FetchState) : Option PageResult × FetchState :=
  match lookupFresh st.cache key nowT with
  | some r => (some r, st)
  | none =>
    let st1 : FetchState := { st with requestCount := st.requestCount + 1 }
    match upstream st.requestCount with
    | .netError => (none, st1)
    | .resp status body =>
      if status == 429 then (some rateLimitSentinel, st1)
      else if 200 ≤ status ∧ status < 300 then
        (some body, { st1 with cache := (key, (body, nowT)) :: st1.cache })
      else (none, st1)

/-- What the side loop of `processXplData` decides after the first
page: `!firstResult.totalPage` with `totalPage === 0` means the
rate-limit skip (`continue`, zero orders); `totalPage` absent means the
`Invalid response` throw (caught by the side-level `catch`); otherwise
the side proceeds over `1..totalPages`. -/
inductive SideDecision where
  | skipRateLimited
  | invalidResponse
  | proceed (totalPages : Nat)
deriving DecidableEq, Repr

def classifyFirst (firstResult : PageResult) : SideDecision :=
  match firstResult.totalPage with
  | none => .invalidResponse
  | some 0 => .skipRateLimited
  | some (n + 1) => .proceed (n + 1)

/-- The orders a side contributes given its decision: the rate-limit
skip and the caught `Invalid response` error both leave the side's
order list empty (the assignment into `allOrders` happens only after a
full collection); otherwise pages `1..totalPages` are concatenated. -/
def sideOrders (d : SideDecision) (pages : Nat → List FetchedOrder) :
    List FetchedOrder :=
  match d with
  | .skipRateLimited => []
  | .invalidResponse => []
  | .proceed n => ((List.range' 1 n).map pages).flatten

/-- The waits a retry loop starting at `delay` performs over `n`
retries: `delay`, then the doubled delays. -/
def backoffs (delay : Nat) : Nat → List Nat
  | 0 => []
  | n + 1 => delay :: backoffs (delay * 2) n

/-- The retrying `fetchPage` of `src/steps/process-xpl-data.step.ts`
(`retries = 3`, `delay = 2000`).  `attempt` is the 1-based loop counter,
`remaining` the attempts still allowed (`remaining = 0` marks
`attempt === retries`), `delay` the current backoff, `delays` the waits
performed so far.  Every failed non-final attempt — HTTP 429, another
non-2xx status, or a rejection — waits `delay` and doubles it; a final
failed attempt throws.  Returns (result, attempts made, waits). -/
def retryGo (events : Nat → HttpEvent) :
    Nat → Nat → Nat → List Nat → Except String PageResult × Nat × List Nat
  | attempt, 0, _, delays =>
    (.error "loop exhausted", attempt, delays)
  | attempt, remaining + 1, delay, delays =>
    match events (attempt - 1) with
    | .resp status body =>
      if status == 429 then
        if remaining == 0 then
          (.error "HTTP error! status: 429 - Rate limited after 3 attempts",
            attempt, delays)
        else retryGo events (attempt + 1) remaining (delay * 2) (delays ++ [delay])
      else if 200 ≤ status ∧ status < 300 then (.ok body, attempt, delays)
      else if remaining == 0 then
        (.error ("HTTP error! status: " ++ toString status), attempt, delays)
      else retryGo events (attempt + 1) remaining (delay * 2) (delays ++ [delay])
    | .netError =>
      if remaining == 0 then (.error "fetch failed", attempt, delays)
      else retryGo events (attempt + 1) remaining (delay * 2) (delays ++ [delay])

def fetchPageRetry (events : Nat → HttpEvent) :
    Except String PageResult × Nat × List Nat :=
  retryGo events 1 3 2000 []

/-- The side-level `catch` of the retrying variant (lines 183-191):
a fetch error is logged and the run continues with whatever the side
collected — nothing, when the first page fetch is what failed. -/
def sideCatch (collected : Except String (List FetchedOrder)) :
    List FetchedOrder :=
  match collected with
  | .ok l => l
  | .error _ => []

/-- Concrete sample data for the witnesses. -/
def sampleFetched : FetchedOrder :=
  { id := "A", side := "buy", userShortName := some "alice", username := none,
    price := some 3, size := some 2, funds := some 6 }

def sampleBad : FetchedOrder :=
  { id := "B", side := "sell", userShortName := none, username := none,
    price := none, size := none, funds := none }

def sampleClosedRow : Row :=
  { uid := "A", side := "buy", username := "old", price := 1, quantity := 1,
    funds := 1, status := "close", created_at := 10, updated_at := 20 }

def samplePage : PageResult :=
  { data := some [sampleFetched], items := none, orders := none,
    totalPage := some 1, totalCount := some 1 }

def upstream429 : Nat → HttpEvent := fun _ => HttpEvent.resp 429 samplePage

def upstream200 : Nat → HttpEvent := fun _ => HttpEvent.resp 200 samplePage

def emptyState : FetchState := { cache := [], requestCount := 0 }

def sampleFailEnv : Env :=
  { createTable := .error "connection refused", buyOrders := [], sellOrders := [],
    listAll := .ok [], now := 0, source := some "cron" }

theorem updateOrderStatus_close_eq_map (now : Nat) (uid : String) (db : DB) :
    updateOrderStatus now uid "close" db = db.map (applyClose now uid) := rfl

theorem closeLoop_fst_eq_map (now : Nat) (ids : List String) :
    ∀ (snap : List Row) (db : DB) (closed : Nat),
      (closeLoop now ids snap db closed).1 = db.map (closeResidual now ids snap)
  | [], db, closed => by
    have h : closeResidual now ids [] = fun x => x := rfl
    rw [h]
    simp [closeLoop]
  | s :: rest, db, closed => by
    have hres : ∀ x, closeResidual now ids (s :: rest) x
        = closeResidual now ids rest
            (if ids.contains s.uid then x else applyClose now s.uid x) := fun _ => rfl
    unfold closeLoop
    cases hb : ids.contains s.uid
    · simp only [Bool.false_eq_true, if_false]
      rw [closeLoop_fst_eq_map now ids rest _ _, updateOrderStatus_close_eq_map,
        List.map_map]
      apply List.map_congr_left
      intro x _
      have hnm : s.uid ∉ ids := by simpa using hb
      simp [Function.comp, hres, hnm]
    · simp only [if_true]
      rw [closeLoop_fst_eq_map now ids rest _ _]
      apply List.map_congr_left
      intro x _
      have hm : s.uid ∈ ids := by simpa using hb
      simp [hres, hm]

theorem applyClose_fixed (now : Nat) (uid : String) (x : Row)
    (hs : x.status = "close") (hu : x.updated_at = now) :
    applyClose now uid x = x := by
  unfold applyClose
  split
  · cases x
    simp only at hs hu
    simp [hs, hu]
  · rfl

theorem closeResidual_fixed (now : Nat) (ids : List String) (snap : List Row) (x : Row)
    (hs : x.status = "close") (hu : x.updated_at = now) :
    closeResidual now ids snap x = x := by
  induction snap with
  | nil => rfl
  | cons s rest ih =>
    unfold closeResidual
    simp only [List.foldl_cons]
    by_cases h : ids.contains s.uid
    · simp only [h, if_true]
      exact ih
    · simp only [h, if_false, applyClose_fixed now s.uid x hs hu]
      exact ih

theorem closeResidual_of_contains (now : Nat) (ids : List String) (snap : List Row)
    (x : Row) (hx : ids.contains x.uid = true) :
    closeResidual now ids snap x = x := by
  induction snap with
  | nil => rfl
  | cons s rest ih =>
    unfold closeResidual
    simp only [List.foldl_cons]
    cases h : ids.contains s.uid
    · simp only [Bool.false_eq_true, if_false]
      have hne : (x.uid == s.uid) = false := by
        cases hbe : x.uid == s.uid
        · rfl
        · rw [beq_iff_eq.mp hbe] at hx
          rw [hx] at h
          cases h
      simp only [applyClose, hne, Bool.false_eq_true, if_false]
      exact ih
    · simp only [if_true]
      exact ih

theorem closeResidual_of_mem (now : Nat) (ids : List String) (snap : List Row)
    (x : Row) (hmem : x ∈ snap) (hx : ids.contains x.uid = false) :
    closeResidual now ids snap x = { x with status := "close", updated_at := now } := by
  induction snap with
  | nil => cases hmem
  | cons s rest ih =>
    unfold closeResidual
    simp only [List.foldl_cons]
    cases h : ids.contains s.uid
    · simp only [Bool.false_eq_true, if_false]
      cases hbe : x.uid == s.uid
      · simp only [applyClose, hbe, Bool.false_eq_true, if_false]
        rcases List.mem_cons.mp hmem with hxs | hxr
        · rw [hxs] at hbe
          simp at hbe
        · exact ih hxr
      · simp only [applyClose, hbe, if_true]
        exact closeResidual_fixed now ids rest _ rfl rfl
    · simp only [if_true]
      rcases List.mem_cons.mp hmem with hxs | hxr
      · rw [← hxs] at h
        rw [h] at hx
        cases hx
      · exact ih hxr

theorem insertOrderBook_eq (now : Nat) (o : NewOrder) (db : DB) :
    insertOrderBook now o db =
      if db.any fun r => r.uid == o.uid then db.map (upsertRow now o)
      else db ++ [{ uid := o.uid, side := o.side, username := o.username,
                    price := o.price, quantity := o.quantity, funds := o.funds,
                    status := o.status, created_at := now, updated_at := now }] := rfl

theorem upsertRow_uid (now : Nat) (o : NewOrder) (r : Row) :
    (upsertRow now o r).uid = r.uid := by
  unfold upsertRow
  split <;> rfl

theorem insertOrderBook_mem_uid (now : Nat) (o : NewOrder) (db : DB) (u : String)
    (h : ∃ r ∈ db, r.uid = u) :
    ∃ r ∈ insertOrderBook now o db, r.uid = u := by
  obtain ⟨r, hr, hu⟩ := h
  rw [insertOrderBook_eq]
  split
  · exact ⟨upsertRow now o r, List.mem_map_of_mem _ hr, by rw [upsertRow_uid, hu]⟩
  · exact ⟨r, List.mem_append_left _ hr, hu⟩

theorem insertOrderBook_upserted (now : Nat) (o : NewOrder) (db : DB) :
    ∃ r ∈ insertOrderBook now o db,
      r.uid = o.uid ∧ r.side = o.side ∧ r.username = o.username ∧
      r.price = o.price ∧ r.quantity = o.quantity ∧ r.funds = o.funds ∧
      r.status = o.status ∧ r.updated_at = now := by
  rw [insertOrderBook_eq]
  split
  · next h =>
    obtain ⟨r, hr, hp⟩ := List.any_eq_true.mp h
    refine ⟨upsertRow now o r, List.mem_map_of_mem _ hr, ?_⟩
    unfold upsertRow
    rw [if_pos hp]
    exact ⟨beq_iff_eq.mp hp, rfl, rfl, rfl, rfl, rfl, rfl, rfl⟩
  · exact ⟨_, List.mem_append_right _ (List.mem_singleton.mpr rfl),
      rfl, rfl, rfl, rfl, rfl, rfl, rfl, rfl⟩

theorem insertOrderBook_open_preserved (now : Nat) (o : NewOrder) (db : DB) (u : String)
    (ho : o.status = "open")
    (hdb : ∀ r ∈ db, r.uid = u → r.status = "open") :
    ∀ r ∈ insertOrderBook now o db, r.uid = u → r.status = "open" := by
  rw [insertOrderBook_eq]
  split
  · intro r hr hru
    obtain ⟨s, hs, hmap⟩ := List.mem_map.mp hr
    subst hmap
    unfold upsertRow
    unfold upsertRow at hru
    split
    · exact ho
    · next hne =>
      rw [if_neg hne] at hru
      exact hdb s hs hru
  · intro r hr hru
    rcases List.mem_append.mp hr with hl | hrr
    · exact hdb r hl hru
    · rw [List.mem_singleton.mp hrr]
      exact ho

theorem insertOrderBook_sets_open (now : Nat) (o : NewOrder) (db : DB)
    (ho : o.status = "open") :
    ∀ r ∈ insertOrderBook now o db, r.uid = o.uid → r.status = "open" := by
  rw [insertOrderBook_eq]
  split
  · intro r hr hru
    obtain ⟨s, hs, hmap⟩ := List.mem_map.mp hr
    subst hmap
    unfold upsertRow
    unfold upsertRow at hru
    cases hbe : s.uid == o.uid
    · rw [hbe] at hru
      simp only [Bool.false_eq_true, if_false] at hru
      rw [hru] at hbe
      simp at hbe
    · simp [ho]
  · next h =>
    intro r hr hru
    rcases List.mem_append.mp hr with hl | hrr
    · have hall := List.any_eq_false.mp (Bool.of_not_eq_true h) r hl
      rw [hru] at hall
      simp at hall
    · rw [List.mem_singleton.mp hrr]
      exact ho

theorem upsertLoop_mem_uid (now : Nat) :
    ∀ (os : List FetchedOrder) (db : DB) (saved : Nat) (u : String),
      (∃ r ∈ db, r.uid = u) → ∃ r ∈ (upsertLoop now os db saved).1, r.uid = u
  | [], db, saved, u, h => h
  | o :: rest, db, saved, u, h =>
    upsertLoop_mem_uid now rest _ _ u (insertOrderBook_mem_uid now (toNewOrder o) db u h)

theorem upsertLoop_open_preserved (now : Nat) :
    ∀ (os : List FetchedOrder) (db : DB) (saved : Nat) (u : String),
      (∀ r ∈ db, r.uid = u → r.status = "open") →
      ∀ r ∈ (upsertLoop now os db saved).1, r.uid = u → r.status = "open"
  | [], db, saved, u, h => h
  | o :: rest, db, saved, u, h =>
    upsertLoop_open_preserved now rest _ _ u
      (insertOrderBook_open_preserved now (toNewOrder o) db u rfl h)

theorem upsertLoop_spec (now : Nat) :
    ∀ (os : List FetchedOrder) (db : DB) (saved : Nat), ∀ o ∈ os,
      (∃ r ∈ (upsertLoop now os db saved).1, r.uid = o.id) ∧
      (∀ r ∈ (upsertLoop now os db saved).1, r.uid = o.id → r.status = "open")
  | [], _, _, o, ho => absurd ho (List.not_mem_nil o)
  | o0 :: rest, db, saved, o, ho => by
    rcases List.mem_cons.mp ho with h0 | hrest
    · subst h0
      constructor
      · apply upsertLoop_mem_uid now rest _ _ o.id
        obtain ⟨r, hr, hu, _⟩ := insertOrderBook_upserted now (toNewOrder o) db
        exact ⟨r, hr, hu⟩
      · apply upsertLoop_open_preserved now rest _ _ o.id
        exact insertOrderBook_sets_open now (toNewOrder o) db rfl
    · exact upsertLoop_spec now rest _ _ o hrest

/-- Claim C1: closure correctness.  After the closure phase of
reconciliation, every persisted row whose `uid` is absent from the set
of external ids of the fresh fetch has been status-updated to
`"close"` (regardless of its previous status), and every row whose
`uid` is present is left entirely unchanged by the closure logic. -/
theorem closure_correctness (now : Nat)
    (buy sell : List CrawlXpl.FetchedOrder) (db : CrawlXpl.DB) :
    (CrawlXpl.closeMissing now (CrawlXpl.newOrderIds buy sell) db).1 =
      db.map (fun r =>
        if (CrawlXpl.newOrderIds buy sell).contains r.uid then r
        else { r with status := "close", updated_at := now }) := by
  unfold CrawlXpl.closeMissing
  rw [CrawlXpl.closeLoop_fst_eq_map]
  apply List.map_congr_left
  intro r hr
  cases hc : (CrawlXpl.newOrderIds buy sell).contains r.uid
  · rw [CrawlXpl.closeResidual_of_mem now _ db r hr hc]
    simp
  · rw [CrawlXpl.closeResidual_of_contains now _ db r hc]
    simp

/-- Claim C2: upsert-all / reopen correctness.  Every order of the
fresh fetch is upserted keyed by its `externalId` with status `"open"`:
after reconciliation a row with that `uid` exists, and every row
carrying that `uid` — in particular one previously persisted with
status `"close"` — has status `"open"`. -/
theorem upsert_all_reopen (now : Nat) (buy sell : List FetchedOrder) (db : DB) :
    ∀ o ∈ buy ++ sell,
      (∃ r ∈ (processReconcile now buy sell db).1, r.uid = o.id) ∧
      (∀ r ∈ (processReconcile now buy sell db).1,
        r.uid = o.id → r.status = "open") := by
  intro o ho
  exact upsertLoop_spec now (buy ++ sell) _ 0 o ho

/-- Witness for C2: one fresh buy order whose `externalId` matches a
persisted row with status `"close"`; after reconciliation the
persisted status is `"open"`. -/
theorem upsert_all_reopen_witness :
    (∃ r ∈ (processReconcile 42 [sampleFetched] [] [sampleClosedRow]).1,
        r.uid = sampleFetched.id) ∧
    (∀ r ∈ (processReconcile 42 [sampleFetched] [] [sampleClosedRow]).1,
        r.uid = sampleFetched.id → r.status = "open") :=
  upsert_all_reopen 42 [sampleFetched] [] [sampleClosedRow] sampleFetched (by simp)

/-- Claim C5: in the run summary, `totalEntries` is the sum of the two
per-side counts, and `rateLimited` is true exactly when both sides
contributed zero orders. -/
theorem summary_flags (buy sell : List FetchedOrder) (saved closed : Nat)
    (src : Option String) :
    (mkSummary buy sell saved closed src).totalEntries =
      (mkSummary buy sell saved closed src).totalBuyOrders +
      (mkSummary buy sell saved closed src).totalSellOrders ∧
    ((mkSummary buy sell saved closed src).rateLimited = true ↔
      ((mkSummary buy sell saved closed src).totalBuyOrders = 0 ∧
       (mkSummary buy sell saved closed src).totalSellOrders = 0)) := by
  constructor
  · rfl
  · simp [mkSummary]

/-- Claim C4: the orchestrator never throws: for every environment the
handler returns a structured result — a summary with `success = true`,
or an error record with `success = false` and the diagnostic header —
and a table-creation failure yields exactly the failed-run record
carrying its message. -/
theorem handler_structured (env : Env) :
    ((∃ s, handler env = RunResult.ok s ∧ s.success = true) ∨
     (∃ e, handler env = RunResult.err e ∧ e.success = false ∧
        e.error = "Failed to process XPL data from KuCoin")) ∧
    (∀ m, env.createTable = Except.error m →
        handler env = RunResult.err (mkErrorResult m env.source)) := by
  constructor
  · unfold handler processXplData processBody
    cases hct : env.createTable with
    | error m =>
      right
      exact ⟨mkErrorResult m env.source, rfl, rfl, rfl⟩
    | ok _ =>
      cases hla : env.listAll with
      | error m =>
        right
        exact ⟨mkErrorResult m env.source, rfl, rfl, rfl⟩
      | ok db =>
        left
        exact ⟨_, rfl, rfl⟩
  · intro m hm
    unfold handler processXplData processBody
    rw [hm]

/-- Witness for C4: a run whose table creation fails returns the
structured failure record and does not throw. -/
theorem handler_structured_witness :
    handler sampleFailEnv =
      RunResult.err (mkErrorResult "connection refused" (some "cron")) :=
  (handler_structured sampleFailEnv).2 "connection refused" rfl

theorem fetchPage_cache_hit (up : Nat → HttpEvent) (t : Nat) (key : String)
    (st : FetchState) (v : PageResult) (ts : Nat)
    (hc : st.cache.lookup key = some (v, ts)) (hfresh : t - ts < CACHE_TTL) :
    fetchPage up t key st = (some v, st) := by
  have h1 : lookupFresh st.cache key t = some v := by
    unfold lookupFresh
    rw [hc]
    exact if_pos hfresh
  unfold fetchPage
  rw [h1]

theorem fetchPage_requestCount_le (up : Nat → HttpEvent) (t : Nat) (key : String)
    (st : FetchState) :
    ((fetchPage up t key st).2).requestCount ≤ st.requestCount + 1 := by
  unfold fetchPage
  cases hlf : lookupFresh st.cache key t
  · cases hev : up st.requestCount
    · dsimp only
      split
      · simp
      · split
        · simp
        · simp
    · simp
  · simp

/-- Claim C3: rate-limit graceful degradation.  When the upstream
answers a page request with HTTP 429, `fetchPage` does not throw: it
returns the sentinel with `totalPage = 0` and empty order arrays, the
side loop classifies that sentinel as the rate-limited skip, and the
side contributes zero orders. -/
theorem rate_limit_graceful (upstream : Nat → HttpEvent) (nowT : Nat) (key : String)
    (st : FetchState) (body : PageResult)
    (hmiss : lookupFresh st.cache key nowT = none)
    (h429 : upstream st.requestCount = HttpEvent.resp 429 body) :
    (fetchPage upstream nowT key st).1 = some rateLimitSentinel ∧
    rateLimitSentinel.totalPage = some 0 ∧
    rateLimitSentinel.data = some [] ∧ rateLimitSentinel.items = some [] ∧
    rateLimitSentinel.orders = some [] ∧
    classifyFirst rateLimitSentinel = SideDecision.skipRateLimited ∧
    (∀ pages, sideOrders (classifyFirst rateLimitSentinel) pages = []) := by
  refine ⟨?_, rfl, rfl, rfl, rfl, rfl, fun pages => rfl⟩
  unfold fetchPage
  rw [hmiss, h429]
  rfl

/-- Witness for C3: a concrete 429 answer on an empty cache. -/
theorem rate_limit_graceful_witness :
    (fetchPage upstream429 0 "k" emptyState).1 = some rateLimitSentinel ∧
    rateLimitSentinel.totalPage = some 0 ∧
    rateLimitSentinel.data = some [] ∧ rateLimitSentinel.items = some [] ∧
    rateLimitSentinel.orders = some [] ∧
    classifyFirst rateLimitSentinel = SideDecision.skipRateLimited ∧
    (∀ pages, sideOrders (classifyFirst rateLimitSentinel) pages = []) :=
  rate_limit_graceful upstream429 0 "k" emptyState samplePage rfl rfl

/-- Claim C7: cache TTL / deduplication.  If the first call left a
cache entry for the key with timestamp `ts` and the second call happens
while that entry is younger than the TTL, the second call returns the
cached result with the state untouched — no network I/O — and the two
calls together issued at most one upstream request. -/
theorem cache_ttl_dedup (up1 up2 : Nat → HttpEvent) (t1 t2 : Nat) (key : String)
    (st : FetchState) (v : PageResult) (ts : Nat)
    (hc : ((fetchPage up1 t1 key st).2).cache.lookup key = some (v, ts))
    (hfresh : t2 - ts < CACHE_TTL) :
    fetchPage up2 t2 key ((fetchPage up1 t1 key st).2) =
      (some v, (fetchPage up1 t1 key st).2) ∧
    ((fetchPage up2 t2 key ((fetchPage up1 t1 key st).2)).2).requestCount ≤
      st.requestCount + 1 := by
  have hsecond : fetchPage up2 t2 key ((fetchPage up1 t1 key st).2)
      = (some v, (fetchPage up1 t1 key st).2) :=
    fetchPage_cache_hit up2 t2 key _ v ts hc hfresh
  refine ⟨hsecond, ?_⟩
  rw [hsecond]
  exact fetchPage_requestCount_le up1 t1 key st

/-- Witness for C7: a successful first call at `t=0`, a second call at
`t=1` for the same key; the second returns the cached page and only one
request was issued in total. -/
theorem cache_ttl_dedup_witness :
    fetchPage upstream200 1 "k" ((fetchPage upstream200 0 "k" emptyState).2) =
      (some samplePage, (fetchPage upstream200 0 "k" emptyState).2) ∧
    ((fetchPage upstream200 1 "k" ((fetchPage upstream200 0 "k" emptyState).2)).2).requestCount ≤
      emptyState.requestCount + 1 :=
  cache_ttl_dedup upstream200 upstream200 0 1 "k" emptyState samplePage 0 rfl (by decide)

/-- Claim C10: the 429 sentinel is never cached.  A page request on a
key with no cache entry that is answered 429 leaves the cache exactly
as it was, and a subsequent call for the same key issues a new upstream
request (the request count rises again) instead of returning a cached
sentinel. -/
theorem sentinel_not_cached (up1 up2 : Nat → HttpEvent) (t1 t2 : Nat) (key : String)
    (st : FetchState) (body : PageResult)
    (hnone : st.cache.lookup key = none)
    (h429 : up1 st.requestCount = HttpEvent.resp 429 body) :
    ((fetchPage up1 t1 key st).2).cache = st.cache ∧
    ((fetchPage up2 t2 key ((fetchPage up1 t1 key st).2)).2).requestCount =
      st.requestCount + 2 := by
  have hmiss1 : lookupFresh st.cache key t1 = none := by
    unfold lookupFresh
    rw [hnone]
  have h1 : fetchPage up1 t1 key st =
      (some rateLimitSentinel, { st with requestCount := st.requestCount + 1 }) := by
    unfold fetchPage
    rw [hmiss1, h429]
    rfl
  rw [h1]
  refine ⟨rfl, ?_⟩
  have hmiss2 : lookupFresh st.cache key t2 = none := by
    unfold lookupFresh
    rw [hnone]
  unfold fetchPage
  dsimp only
  rw [hmiss2]
  cases hev : up2 (st.requestCount + 1)
  · dsimp only
    split
    · simp
    · split
      · simp
      · simp
  · simp

/-- Witness for C10: a 429 on an empty cache caches nothing; the next
call for the same key issues a second upstream request. -/
theorem sentinel_not_cached_witness :
    ((fetchPage upstream429 0 "k" emptyState).2).cache = emptyState.cache ∧
    ((fetchPage upstream429 1 "k" ((fetchPage upstream429 0 "k" emptyState).2)).2).requestCount =
      emptyState.requestCount + 2 :=
  sentinel_not_cached upstream429 upstream429 0 1 "k" emptyState samplePage rfl rfl

/-- Claim C8: `createdAt` frame condition.  When an upsert hits an
existing `uid`, every matching row is overwritten in `side`,
`username`, `price`, `quantity`, `funds` and `status`, `updated_at` is
refreshed to the current time, and `created_at` is left exactly as it
was; non-matching rows are untouched. -/
theorem upsert_keeps_createdAt (now : Nat) (o : NewOrder) (db : DB)
    (h : (db.any fun r => r.uid == o.uid) = true) :
    insertOrderBook now o db = db.map fun r =>
      if r.uid == o.uid then
        { uid := r.uid, side := o.side, username := o.username, price := o.price,
          quantity := o.quantity, funds := o.funds, status := o.status,
          created_at := r.created_at, updated_at := now }
      else r := by
  rw [insertOrderBook_eq, if_pos h]
  rfl

/-- Witness for C8: re-upserting the externalId of a persisted closed
row overwrites the payload columns and keeps `created_at`. -/
theorem upsert_keeps_createdAt_witness :
    insertOrderBook 42 (toNewOrder sampleFetched) [sampleClosedRow] =
      [sampleClosedRow].map fun r =>
        if r.uid == (toNewOrder sampleFetched).uid then
          { uid := r.uid, side := (toNewOrder sampleFetched).side,
            username := (toNewOrder sampleFetched).username,
            price := (toNewOrder sampleFetched).price,
            quantity := (toNewOrder sampleFetched).quantity,
            funds := (toNewOrder sampleFetched).funds,
            status := (toNewOrder sampleFetched).status,
            created_at := r.created_at, updated_at := 42 }
        else r :=
  upsert_keeps_createdAt 42 (toNewOrder sampleFetched) [sampleClosedRow] rfl

/-- Claim C9: numeric defaulting.  Every fetched record is persisted:
a row with its `externalId` exists after the upsert, its numeric
columns are the `parseFloat(x) || 0` coercions of the raw fields, and
a missing or non-numeric `price`, `size` or `funds` is stored as `0`
rather than failing the record. -/
theorem numeric_defaulting (now : Nat) (o : FetchedOrder) (db : DB) :
    ∃ r ∈ insertOrderBook now (toNewOrder o) db,
      r.uid = o.id ∧ r.price = jsNumOr0 o.price ∧ r.quantity = jsNumOr0 o.size ∧
      r.funds = jsNumOr0 o.funds ∧
      (o.price = none → r.price = 0) ∧ (o.size = none → r.quantity = 0) ∧
      (o.funds = none → r.funds = 0) := by
  obtain ⟨r, hr, huid, _hside, _husr, hp, hq, hf, _hst, _hupd⟩ :=
    insertOrderBook_upserted now (toNewOrder o) db
  refine ⟨r, hr, huid, hp, hq, hf, ?_, ?_, ?_⟩
  · intro h
    rw [hp]
    simp [toNewOrder, jsNumOr0, h]
  · intro h
    rw [hq]
    simp [toNewOrder, jsNumOr0, h]
  · intro h
    rw [hf]
    simp [toNewOrder, jsNumOr0, h]

/-- Witness for C9: a record with missing/non-numeric `price`, `size`
and `funds` persists with zeros. -/
theorem numeric_defaulting_witness :
    ∃ r ∈ insertOrderBook 7 (toNewOrder sampleBad) [],
      r.uid = sampleBad.id ∧ r.price = jsNumOr0 sampleBad.price ∧
      r.quantity = jsNumOr0 sampleBad.size ∧ r.funds = jsNumOr0 sampleBad.funds ∧
      (sampleBad.price = none → r.price = 0) ∧
      (sampleBad.size = none → r.quantity = 0) ∧
      (sampleBad.funds = none → r.funds = 0) :=
  numeric_defaulting 7 sampleBad []

theorem retryGo_attempt_ge (events : Nat → HttpEvent) :
    ∀ (remaining attempt delay : Nat) (delays : List Nat),
      attempt ≤ (retryGo events attempt (remaining + 1) delay delays).2.1
  | 0, attempt, delay, delays => by
    unfold retryGo
    cases hev : events (attempt - 1)
    · dsimp only
      split_ifs <;> simp_all
    · dsimp only
      split_ifs <;> simp_all
  | remaining + 1, attempt, delay, delays => by
    unfold retryGo
    cases hev : events (attempt - 1) with
    | resp status body =>
      dsimp only
      cases h429 : status == 429
      · simp only [Bool.false_eq_true, if_false]
        by_cases hok : 200 ≤ status ∧ status < 300
        · rw [if_pos hok]
        · rw [if_neg hok]
          have hz : ((remaining + 1 : Nat) == 0) = false := by simp
          simp only [hz, Bool.false_eq_true, if_false]
          exact Nat.le_of_succ_le
            (retryGo_attempt_ge events remaining (attempt + 1) (delay * 2) (delays ++ [delay]))
      · simp only [if_true]
        have hz : ((remaining + 1 : Nat) == 0) = false := by simp
        simp only [hz, Bool.false_eq_true, if_false]
        exact Nat.le_of_succ_le
          (retryGo_attempt_ge events remaining (attempt + 1) (delay * 2) (delays ++ [delay]))
    | netError =>
      dsimp only
      have hz : ((remaining + 1 : Nat) == 0) = false := by simp
      simp only [hz, Bool.false_eq_true, if_false]
      exact Nat.le_of_succ_le
        (retryGo_attempt_ge events remaining (attempt + 1) (delay * 2) (delays ++ [delay]))

theorem retryGo_attempt_le (events : Nat → HttpEvent) :
    ∀ (remaining attempt delay : Nat) (delays : List Nat),
      (retryGo events attempt (remaining + 1) delay delays).2.1 ≤ attempt + remaining
  | 0, attempt, delay, delays => by
    unfold retryGo
    cases hev : events (attempt - 1)
    · dsimp only
      split_ifs <;> simp_all
    · dsimp only
      split_ifs <;> simp_all
  | remaining + 1, attempt, delay, delays => by
    unfold retryGo
    have hrec : (retryGo events (attempt + 1) (remaining + 1) (delay * 2)
        (delays ++ [delay])).2.1 ≤ attempt + (remaining + 1) := by
      have := retryGo_attempt_le events remaining (attempt + 1) (delay * 2) (delays ++ [delay])
      omega
    cases hev : events (attempt - 1) with
    | resp status body =>
      dsimp only
      cases h429 : status == 429
      · simp only [Bool.false_eq_true, if_false]
        by_cases hok : 200 ≤ status ∧ status < 300
        · rw [if_pos hok]
          simp
        · rw [if_neg hok]
          have hz : ((remaining + 1 : Nat) == 0) = false := by simp
          simp only [hz, Bool.false_eq_true, if_false]
          exact hrec
      · simp only [if_true]
        have hz : ((remaining + 1 : Nat) == 0) = false := by simp
        simp only [hz, Bool.false_eq_true, if_false]
        exact hrec
    | netError =>
      dsimp only
      have hz : ((remaining + 1 : Nat) == 0) = false := by simp
      simp only [hz, Bool.false_eq_true, if_false]
      exact hrec

theorem retryGo_delays_eq (events : Nat → HttpEvent) :
    ∀ (remaining attempt delay : Nat) (delays : List Nat),
      (retryGo events attempt (remaining + 1) delay delays).2.2 =
        delays ++ backoffs delay
          ((retryGo events attempt (remaining + 1) delay delays).2.1 - attempt)
  | 0, attempt, delay, delays => by
    unfold retryGo
    cases hev : events (attempt - 1)
    · dsimp only
      split_ifs <;> simp_all [backoffs]
    · dsimp only
      split_ifs <;> simp_all [backoffs]
  | remaining + 1, attempt, delay, delays => by
    have hrec : (retryGo events (attempt + 1) (remaining + 1) (delay * 2)
          (delays ++ [delay])).2.2 =
        (delays ++ [delay]) ++ backoffs (delay * 2)
          ((retryGo events (attempt + 1) (remaining + 1) (delay * 2)
            (delays ++ [delay])).2.1 - (attempt + 1)) :=
      retryGo_delays_eq events remaining (attempt + 1) (delay * 2) (delays ++ [delay])
    have hge : attempt + 1 ≤ (retryGo events (attempt + 1) (remaining + 1) (delay * 2)
        (delays ++ [delay])).2.1 :=
      retryGo_attempt_ge events remaining (attempt + 1) (delay * 2) (delays ++ [delay])
    have hsub : (retryGo events (attempt + 1) (remaining + 1) (delay * 2)
          (delays ++ [delay])).2.1 - attempt =
        ((retryGo events (attempt + 1) (remaining + 1) (delay * 2)
          (delays ++ [delay])).2.1 - (attempt + 1)) + 1 := by omega
    have hstep : delays ++ backoffs delay
          (((retryGo events (attempt + 1) (remaining + 1) (delay * 2)
            (delays ++ [delay])).2.1 - (attempt + 1)) + 1) =
        (delays ++ [delay]) ++ backoffs (delay * 2)
          ((retryGo events (attempt + 1) (remaining + 1) (delay * 2)
            (delays ++ [delay])).2.1 - (attempt + 1)) := by
      rw [backoffs]
      simp
    unfold retryGo
    cases hev : events (attempt - 1) with
    | resp status body =>
      dsimp only
      cases h429 : status == 429
      · simp only [Bool.false_eq_true, if_false]
        by_cases hok : 200 ≤ status ∧ status < 300
        · rw [if_pos hok]
          simp [backoffs]
        · rw [if_neg hok]
          have hz : ((remaining + 1 : Nat) == 0) = false := by simp
          simp only [hz, Bool.false_eq_true, if_false]
          rw [hrec, hsub, hstep]
      · simp only [if_true]
        have hz : ((remaining + 1 : Nat) == 0) = false := by simp
        simp only [hz, Bool.false_eq_true, if_false]
        rw [hrec, hsub, hstep]
    | netError =>
      dsimp only
      have hz : ((remaining + 1 : Nat) == 0) = false := by simp
      simp only [hz, Bool.false_eq_true, if_false]
      rw [hrec, hsub, hstep]

theorem retryGo_error_attempts (events : Nat → HttpEvent) :
    ∀ (remaining attempt delay : Nat) (delays : List Nat) (msg : String),
      (retryGo events attempt (remaining + 1) delay delays).1 = Except.error msg →
      (retryGo events attempt (remaining + 1) delay delays).2.1 = attempt + remaining
  | 0, attempt, delay, delays, msg => by
    unfold retryGo
    cases hev : events (attempt - 1)
    · dsimp only
      split_ifs <;> intro h <;> simp_all
    · dsimp only
      split_ifs <;> intro h <;> simp_all
  | remaining + 1, attempt, delay, delays, msg => by
    have hrec := retryGo_error_attempts events remaining (attempt + 1) (delay * 2)
      (delays ++ [delay]) msg
    unfold retryGo
    cases hev : events (attempt - 1) with
    | resp status body =>
      dsimp only
      cases h429 : status == 429
      · simp only [Bool.false_eq_true, if_false]
        by_cases hok : 200 ≤ status ∧ status < 300
        · rw [if_pos hok]
          intro h
          exact absurd h (by simp)
        · rw [if_neg hok]
          have hz : ((remaining + 1 : Nat) == 0) = false := by simp
          simp only [hz, Bool.false_eq_true, if_false]
          intro h
          rw [hrec h]
          omega
      · simp only [if_true]
        have hz : ((remaining + 1 : Nat) == 0) = false := by simp
        simp only [hz, Bool.false_eq_true, if_false]
        intro h
        rw [hrec h]
        omega
    | netError =>
      dsimp only
      have hz : ((remaining + 1 : Nat) == 0) = false := by simp
      simp only [hz, Bool.false_eq_true, if_false]
      intro h
      rw [hrec h]
      omega

/-- Counterexample to C6 as stated: a persistent HTTP 429 IS retried by
the scheduled-cron `fetchPage` variant — with the same 2000ms-then-4000ms
backoff the transient branch uses — and only after the 3rd attempt does
it raise the rate-limited error.  Under the claim ("429 responses are
not retried") the loop would have stopped after 1 attempt. -/
theorem retry_429_is_retried :
    (fetchPageRetry (fun _ => HttpEvent.resp 429 samplePage)).2.1 = 3 ∧
    (fetchPageRetry (fun _ => HttpEvent.resp 429 samplePage)).2.2 = [2000, 4000] ∧
    (fetchPageRetry (fun _ => HttpEvent.resp 429 samplePage)).1 =
      Except.error "HTTP error! status: 429 - Rate limited after 3 attempts" :=
  ⟨rfl, rfl, rfl⟩

/-- Claim C6 (amended): every failed attempt — HTTP 429, another
non-2xx response, or a network error — is retried up to 3 attempts
total, waiting 2000ms before the first retry and doubling the delay
before each subsequent one; an error surfaces only after the 3rd
attempt, and the side-level catch turns it into an empty contribution
so the run continues. -/
theorem retry_backoff_bound (events : Nat → HttpEvent) :
    (fetchPageRetry events).2.1 ≤ 3 ∧
    (fetchPageRetry events).2.2 = [2000, 4000].take ((fetchPageRetry events).2.1 - 1) ∧
    (∀ msg, (fetchPageRetry events).1 = Except.error msg →
      (fetchPageRetry events).2.1 = 3 ∧ sideCatch (Except.error msg) = []) := by
  have e : fetchPageRetry events = retryGo events 1 (2 + 1) 2000 [] := rfl
  have hle : (retryGo events 1 (2 + 1) 2000 []).2.1 ≤ 3 :=
    retryGo_attempt_le events 2 1 2000 []
  refine ⟨by rw [e]; exact hle, ?_, ?_⟩
  · rw [e]
    rw [retryGo_delays_eq events 2 1 2000 []]
    have hk : (retryGo events 1 (2 + 1) 2000 []).2.1 - 1 ≤ 2 := by omega
    have htake : ∀ k, k ≤ 2 → backoffs 2000 k = [2000, 4000].take k := by decide
    rw [htake _ hk]
    simp
  · intro msg hmsg
    rw [e] at hmsg ⊢
    exact ⟨retryGo_error_attempts events 2 1 2000 [] msg hmsg, rfl⟩

/-- Witness for the amended C6: with every attempt failing on a network
error, the fetch makes exactly 3 attempts and the caught error leaves
the side empty. -/
theorem retry_backoff_bound_witness :
    (fetchPageRetry (fun _ => HttpEvent.netError)).2.1 = 3 ∧
    sideCatch (Except.error "fetch failed") = [] :=
  (retry_backoff_bound (fun _ => HttpEvent.netError)).2.2 "fetch failed" rfl

end CrawlXpl
